import Mathlib

/-!
# rqlite-adapter: the rule-persistence protocol of `adapter.go`

A shallow embedding of the Casbin/rqlite storage adapter:

* the row type `CasbinRule` and the encode/decode functions `savePolicyLine`
  and `loadPolicyLine`;
* the statement texts built by `writeLine` and `RemovePolicy` (plain string
  concatenation, as in the source);
* the filter construction of `RemoveFilteredPolicy`, with Go's `int`
  arithmetic (64-bit wrap-around) and Go's bounds-checked slice indexing;
* the four storage operations `LoadPolicy`, `SavePolicy`, `AddPolicy` and
  `RemoveFilteredPolicy`, run against a small model of the backing store.

The backing store (rqlite, reached through gorqlite) is an external
collaborator.  It is modelled as one table of rows together with an
interpreter for the handful of statement shapes the adapter sends.  The
interpreter tokenises the statement text with SQL's string-literal rule (a
literal runs from a single quote to the next single quote that is not
doubled), so an unescaped quote inside a value really does change what the
store reads.
-/

namespace RqliteAdapter

/-! ## Data model -/

/-- Go's `error` values are represented by their message; `nil` is `none`. -/
abbrev Error := String

/-- The row type `CasbinRule` of `adapter.go`; Go's zero value has every
field equal to the empty string. -/
structure CasbinRule where
  PType : String := ""
  V0 : String := ""
  V1 : String := ""
  V2 : String := ""
  V3 : String := ""
  V4 : String := ""
  V5 : String := ""
deriving DecidableEq, Repr

/-- The package-level variable `tableName`. -/
def tableName : String := "rules"

/-- The six positional fields of a row, in column order `v0..v5`. -/
def CasbinRule.fields (line : CasbinRule) : List String :=
  [line.V0, line.V1, line.V2, line.V3, line.V4, line.V5]

/-- Column `v{i}` of a row, for `i` in `0..5` (empty for any other index). -/
def CasbinRule.field (line : CasbinRule) (i : Nat) : String :=
  line.fields.getD i ""

/-! ## Decoding a row into a policy line (`loadPolicyLine`) -/

/-- The `lineText` that `loadPolicyLine` builds from a row before handing it
to `persist.LoadPolicyLine`. -/
def loadPolicyLineText (line : CasbinRule) : String :=
  let lineText := line.PType
  let lineText := if line.V0 ≠ "" then lineText ++ (", " ++ line.V0) else lineText
  let lineText := if line.V1 ≠ "" then lineText ++ (", " ++ line.V1) else lineText
  let lineText := if line.V2 ≠ "" then lineText ++ (", " ++ line.V2) else lineText
  let lineText := if line.V3 ≠ "" then lineText ++ (", " ++ line.V3) else lineText
  let lineText := if line.V4 ≠ "" then lineText ++ (", " ++ line.V4) else lineText
  let lineText := if line.V5 ≠ "" then lineText ++ (", " ++ line.V5) else lineText
  lineText

/-- The function `loadPolicyLine`: the engine's policy builder is external, so
the model handle is represented by the list of line texts forwarded to it so
far. -/
def loadPolicyLine (line : CasbinRule) (model : List String) : List String :=
  model ++ [loadPolicyLineText line]

/-! ## Encoding a rule into a row (`savePolicyLine`) -/

/-- The function `savePolicyLine`. -/
def savePolicyLine (ptype : String) (rule : List String) : CasbinRule :=
  let line : CasbinRule := {}
  let line := { line with PType := ptype }
  let line := if h : rule.length > 0 then { line with V0 := rule[0] } else line
  let line := if h : rule.length > 1 then { line with V1 := rule[1] } else line
  let line := if h : rule.length > 2 then { line with V2 := rule[2] } else line
  let line := if h : rule.length > 3 then { line with V3 := rule[3] } else line
  let line := if h : rule.length > 4 then { line with V4 := rule[4] } else line
  let line := if h : rule.length > 5 then { line with V5 := rule[5] } else line
  line

/-! ## Statement texts -/

/-- The statement text `writeLine` sends to the store. -/
def writeLineStmt (line : CasbinRule) : String :=
  let columns := "p_type, v0, v1, v2, v3, v4, v5"
  let values := "'" ++ line.PType ++ "'"
  let values := values ++ (", '" ++ line.V0 ++ "'")
  let values := values ++ (", '" ++ line.V1 ++ "'")
  let values := values ++ (", '" ++ line.V2 ++ "'")
  let values := values ++ (", '" ++ line.V3 ++ "'")
  let values := values ++ (", '" ++ line.V4 ++ "'")
  let values := values ++ (", '" ++ line.V5 ++ "'")
  "INSERT OR IGNORE INTO " ++ tableName ++ " (" ++ columns ++ ") VALUES (" ++ values ++ ")"

/-- The `condition` text that `RemovePolicy` builds. -/
def RemovePolicyCondition (ptype : String) (rule : List String) : String :=
  let condition := "p_type = '" ++ ptype ++ "'"
  let condition :=
    if h : rule.length > 0 then condition ++ (" AND v0 = '" ++ rule[0] ++ "'") else condition
  let condition :=
    if h : rule.length > 1 then condition ++ (" AND v1 = '" ++ rule[1] ++ "'") else condition
  let condition :=
    if h : rule.length > 2 then condition ++ (" AND v2 = '" ++ rule[2] ++ "'") else condition
  let condition :=
    if h : rule.length > 3 then condition ++ (" AND v3 = '" ++ rule[3] ++ "'") else condition
  let condition :=
    if h : rule.length > 4 then condition ++ (" AND v4 = '" ++ rule[4] ++ "'") else condition
  let condition :=
    if h : rule.length > 5 then condition ++ (" AND v5 = '" ++ rule[5] ++ "'") else condition
  condition

/-- The statement text `RemovePolicy` sends to the store. -/
def RemovePolicyStmt (ptype : String) (rule : List String) : String :=
  "DELETE FROM " ++ tableName ++ " WHERE " ++ RemovePolicyCondition ptype rule

/-- The statement text of `createTable`. -/
def createTableStmt : String :=
  "CREATE TABLE IF NOT EXISTS " ++ tableName ++
    " (p_type TEXT NULL, v0 TEXT NULL, v1 TEXT NULL, v2 TEXT NULL, v3 TEXT NULL, v4 TEXT NULL, v5 TEXT NULL, PRIMARY KEY(p_type, v0, v1, v2, v3, v4, v5))"

/-- The statement text of `dropTable`. -/
def dropTableStmt : String :=
  "DROP TABLE IF EXISTS " ++ tableName

/-- The query text of `LoadPolicy`. -/
def selectStmt : String :=
  "SELECT * FROM " ++ tableName

/-! ## The filter row of `RemoveFilteredPolicy` -/

/-- Go's `int` on 64-bit targets: the result of an addition or subtraction is
reduced to the two's-complement range `[-2^63, 2^63)`, where `2^63` is
9223372036854775808 and `2^64` is 18446744073709551616. -/
def wrapInt (x : Int) : Int :=
  (x + 9223372036854775808) % 18446744073709551616 - 9223372036854775808

/-- The least value of Go's `int`, `-2^63`. -/
def intMin : Int := -9223372036854775808

/-- The greatest value of Go's `int`, `2^63 - 1`; also the largest length a
slice can report. -/
def intMax : Int := 9223372036854775807

/-- Go's slice indexing `xs[k]`: `none` stands for the run-time panic
"index out of range". -/
def goIndex (xs : List String) (k : Int) : Option String :=
  if 0 ≤ k then xs[k.toNat]? else none

/-- The guard `fieldIndex <= i && i < fieldIndex + len(fieldValues)` of
`RemoveFilteredPolicy`, for the column number `i`. -/
def filterGuard (fieldIndex : Int) (fieldValues : List String) (i : Int) : Bool :=
  decide (fieldIndex ≤ i) && decide (i < wrapInt (fieldIndex + (fieldValues.length : Int)))

/-- The index `i - fieldIndex` that `RemoveFilteredPolicy` reads `fieldValues`
at, for the column number `i`. -/
def filterIndex (fieldIndex : Int) (i : Int) : Int :=
  wrapInt (i - fieldIndex)

/-- The row `RemoveFilteredPolicy` fills in before calling `removeLine`;
`none` when one of its slice reads panics. -/
def RemoveFilteredPolicyLine (ptype : String) (fieldIndex : Int) (fieldValues : List String) :
    Option CasbinRule :=
  let line : CasbinRule := {}
  let line := { line with PType := ptype }
  (if filterGuard fieldIndex fieldValues 0
    then (goIndex fieldValues (filterIndex fieldIndex 0)).map (fun v => { line with V0 := v })
    else some line).bind fun line =>
  (if filterGuard fieldIndex fieldValues 1
    then (goIndex fieldValues (filterIndex fieldIndex 1)).map (fun v => { line with V1 := v })
    else some line).bind fun line =>
  (if filterGuard fieldIndex fieldValues 2
    then (goIndex fieldValues (filterIndex fieldIndex 2)).map (fun v => { line with V2 := v })
    else some line).bind fun line =>
  (if filterGuard fieldIndex fieldValues 3
    then (goIndex fieldValues (filterIndex fieldIndex 3)).map (fun v => { line with V3 := v })
    else some line).bind fun line =>
  (if filterGuard fieldIndex fieldValues 4
    then (goIndex fieldValues (filterIndex fieldIndex 4)).map (fun v => { line with V4 := v })
    else some line).bind fun line =>
  (if filterGuard fieldIndex fieldValues 5
    then (goIndex fieldValues (filterIndex fieldIndex 5)).map (fun v => { line with V5 := v })
    else some line).bind fun line =>
  some line

/-- The `rules` slice that `removeLine` passes to `RemovePolicy`: all six
columns of the row, empty or not. -/
def removeLineRules (line : CasbinRule) : List String :=
  let rules : List String := []
  let rules := rules ++ [line.V0]
  let rules := rules ++ [line.V1]
  let rules := rules ++ [line.V2]
  let rules := rules ++ [line.V3]
  let rules := rules ++ [line.V4]
  let rules := rules ++ [line.V5]
  rules

/-- The DELETE statement that a call of `RemoveFilteredPolicy` sends to the
store (through `removeLine` and `RemovePolicy`). -/
def RemoveFilteredPolicyStmt (ptype : String) (fieldIndex : Int) (fieldValues : List String) :
    Option String :=
  (RemoveFilteredPolicyLine ptype fieldIndex fieldValues).map
    (fun line => RemovePolicyStmt line.PType (removeLineRules line))

/-! ## Model of the backing store

The store holds at most one table, `rules`, whose primary key is the full
seven-column tuple.  A statement is tokenised and then matched against the
statement shapes the adapter sends. -/

/-- The single-quote character, which delimits SQL string literals. -/
def quoteChar : Char := Char.ofNat 39

/-- Tokens of the statement texts the adapter sends. -/
inductive Token where
  | word (s : String)
  | lit (s : String)
  | sym (c : Char)
deriving DecidableEq, Repr

/-- States of the tokeniser.  The accumulators hold the characters read so
far, most recent first. -/
inductive LexState where
  | start
  | inWord (acc : List Char)
  | inLit (acc : List Char)
  | afterQuote (acc : List Char)
deriving DecidableEq, Repr

/-- Characters of keywords and identifiers. -/
def isWordChar (c : Char) : Bool :=
  c.isAlphanum || c == Char.ofNat 95

/-- Reads a character that does not continue the current token. -/
def lexFresh (out : List Token) (c : Char) : LexState × List Token :=
  if c = quoteChar then (.inLit [], out)
  else if c.isWhitespace then (.start, out)
  else if isWordChar c then (.inWord [c], out)
  else (.start, .sym c :: out)

/-- One step of the tokeniser.  Inside a string literal every character is
data except the single quote; a quote ends the literal unless it is followed
by a second quote, which stands for one quote character in the value. -/
def lexStep : LexState × List Token → Char → LexState × List Token
  | (.start, out), c => lexFresh out c
  | (.inWord acc, out), c =>
      if isWordChar c then (.inWord (c :: acc), out)
      else lexFresh (.word (String.mk acc.reverse) :: out) c
  | (.inLit acc, out), c =>
      if c = quoteChar then (.afterQuote acc, out) else (.inLit (c :: acc), out)
  | (.afterQuote acc, out), c =>
      if c = quoteChar then (.inLit (c :: acc), out)
      else lexFresh (.lit (String.mk acc.reverse) :: out) c

/-- End of input: an unterminated string literal is a syntax error. -/
def lexFinish : LexState × List Token → Option (List Token)
  | (.start, out) => some out.reverse
  | (.inWord acc, out) => some (Token.word (String.mk acc.reverse) :: out).reverse
  | (.inLit _, _) => none
  | (.afterQuote acc, out) => some (Token.lit (String.mk acc.reverse) :: out).reverse

/-- Tokenises a statement text. -/
def tokenize (s : String) : Option (List Token) :=
  lexFinish (s.data.foldl lexStep (.start, []))

/-- Removes the token sequence `pre` from the front of `ts`. -/
def dropHead : List Token → List Token → Option (List Token)
  | [], ts => some ts
  | _ :: _, [] => none
  | p :: ps, t :: ts => if p = t then dropHead ps ts else none

/-- Reads a comma-separated list of string literals closed by `)`. -/
def parseLiterals : List Token → Option (List String)
  | .lit v :: .sym c :: rest =>
      if c = ',' then (parseLiterals rest).map (fun vs => v :: vs)
      else if c = ')' ∧ rest = [] then some [v]
      else none
  | _ => none

/-- Reads a WHERE condition: equalities `column = literal` joined by AND. -/
def parseCondition : List Token → Option (List (String × String))
  | [.word col, .sym c, .lit v] => if c = '=' then some [(col, v)] else none
  | .word col :: .sym c :: .lit v :: .word kw :: rest =>
      if c = '=' ∧ kw = "AND" then (parseCondition rest).map (fun cs => (col, v) :: cs)
      else none
  | _ => none

/-- The value of a named column in a row; `none` for an unknown column. -/
def CasbinRule.column (row : CasbinRule) (col : String) : Option String :=
  if col = "p_type" then some row.PType
  else if col = "v0" then some row.V0
  else if col = "v1" then some row.V1
  else if col = "v2" then some row.V2
  else if col = "v3" then some row.V3
  else if col = "v4" then some row.V4
  else if col = "v5" then some row.V5
  else none

/-- Whether every column named in a condition exists. -/
def validCondition (conds : List (String × String)) : Bool :=
  conds.all (fun cv => (({} : CasbinRule).column cv.1).isSome)

/-- Whether a row satisfies every equality of a condition. -/
def satisfies (conds : List (String × String)) (row : CasbinRule) : Bool :=
  conds.all (fun cv => decide (row.column cv.1 = some cv.2))

/-- The statement shapes the store understands. -/
inductive Statement where
  | insertIgnore (row : CasbinRule)
  | delete (conds : List (String × String))
  | dropTable
  | createTable
  | selectAll
deriving DecidableEq, Repr

/-- Tokens of `INSERT OR IGNORE INTO rules (p_type, v0, ..., v5) VALUES (`. -/
def insertHead : List Token :=
  [.word "INSERT", .word "OR", .word "IGNORE", .word "INTO", .word tableName, .sym '(',
   .word "p_type", .sym ',', .word "v0", .sym ',', .word "v1", .sym ',', .word "v2", .sym ',',
   .word "v3", .sym ',', .word "v4", .sym ',', .word "v5", .sym ')', .word "VALUES", .sym '(']

/-- Tokens of `DELETE FROM rules WHERE`. -/
def deleteHead : List Token :=
  [.word "DELETE", .word "FROM", .word tableName, .word "WHERE"]

/-- Tokens of `DROP TABLE IF EXISTS rules`. -/
def dropTokens : List Token :=
  [.word "DROP", .word "TABLE", .word "IF", .word "EXISTS", .word tableName]

/-- Tokens of `SELECT * FROM rules`. -/
def selectTokens : List Token :=
  [.word "SELECT", .sym '*', .word "FROM", .word tableName]

/-- Tokens of the CREATE TABLE statement of the schema. -/
def createTokens : List Token :=
  [.word "CREATE", .word "TABLE", .word "IF", .word "NOT", .word "EXISTS", .word tableName,
   .sym '(',
   .word "p_type", .word "TEXT", .word "NULL", .sym ',',
   .word "v0", .word "TEXT", .word "NULL", .sym ',',
   .word "v1", .word "TEXT", .word "NULL", .sym ',',
   .word "v2", .word "TEXT", .word "NULL", .sym ',',
   .word "v3", .word "TEXT", .word "NULL", .sym ',',
   .word "v4", .word "TEXT", .word "NULL", .sym ',',
   .word "v5", .word "TEXT", .word "NULL", .sym ',',
   .word "PRIMARY", .word "KEY", .sym '(',
   .word "p_type", .sym ',', .word "v0", .sym ',', .word "v1", .sym ',', .word "v2", .sym ',',
   .word "v3", .sym ',', .word "v4", .sym ',', .word "v5", .sym ')', .sym ')']

/-- Reads an INSERT statement: exactly seven string literals, one per column. -/
def parseInsert (toks : List Token) : Option Statement :=
  match dropHead insertHead toks with
  | none => none
  | some rest =>
    match parseLiterals rest with
    | some [a, b, c, d, e, f, g] => some (.insertIgnore ⟨a, b, c, d, e, f, g⟩)
    | _ => none

/-- Reads a DELETE statement with a WHERE condition over existing columns. -/
def parseDelete (toks : List Token) : Option Statement :=
  match dropHead deleteHead toks with
  | none => none
  | some rest =>
    match parseCondition rest with
    | some conds => if validCondition conds then some (.delete conds) else none
    | none => none

/-- Reads a statement text; `none` is a syntax error. -/
def parseStatement (stmt : String) : Option Statement :=
  match tokenize stmt with
  | none => none
  | some toks =>
    if toks = dropTokens then some .dropTable
    else if toks = createTokens then some .createTable
    else if toks = selectTokens then some .selectAll
    else (parseInsert toks).orElse (fun _ => parseDelete toks)

/-- The rows of the `rules` table, without duplicates. -/
abbrev Table := List CasbinRule

/-- The state of the store: `none` when the `rules` table does not exist. -/
abbrev Store := Option Table

/-- INSERT OR IGNORE: a row already present is left alone. -/
def insertOrIgnore (row : CasbinRule) (t : Table) : Table :=
  if row ∈ t then t else t ++ [row]

/-- The store executing one write statement (gorqlite's `WriteOne`): the new
state and the error, if any.  A failed statement changes nothing. -/
def WriteOne (db : Store) (stmt : String) : Store × Option Error :=
  match parseStatement stmt with
  | none => (db, some "syntax error")
  | some .selectAll => (db, some "not a write statement")
  | some .dropTable => (none, none)
  | some .createTable => (some (db.getD []), none)
  | some (.insertIgnore row) =>
    match db with
    | none => (db, some "no such table")
    | some t => (some (insertOrIgnore row t), none)
  | some (.delete conds) =>
    match db with
    | none => (db, some "no such table")
    | some t => (some (t.filter (fun r => !satisfies conds r)), none)

/-- The row an INSERT statement text stores, read back from its VALUES list;
`none` when the text is not a well-formed seven-value INSERT. -/
def insertedRow (stmt : String) : Option CasbinRule :=
  match parseStatement stmt with
  | some (.insertIgnore row) => some row
  | _ => none

/-- Whether the WHERE condition of a DELETE statement text is satisfied by a
row; `none` when the text is not a well-formed DELETE. -/
def deleteMatches (stmt : String) (row : CasbinRule) : Option Bool :=
  match parseStatement stmt with
  | some (.delete conds) => some (satisfies conds row)
  | _ => none

/-- What `result.Scan(&line)` leaves behind for one row of a result set: the
contents of `line` and the returned error. -/
structure ScanOutcome where
  line : CasbinRule
  err : Option Error
deriving DecidableEq, Repr

/-- A result set (gorqlite's `QueryResult`), walked with `Next`/`Scan`. -/
abbrev QueryResult := List ScanOutcome

/-- The number of columns of a row of `SELECT * FROM rules`: `p_type` and
`v0..v5`. -/
def resultColumns : Nat := 7

/-- The call `result.Scan(&line)` of `LoadPolicy`, on a row of `columns`
columns.  gorqlite's `Scan(dest ...interface{})` takes one destination per
column: it returns an error when the number of destinations differs from the
number of columns, and it refuses a destination that is not a pointer to a
scalar.  `LoadPolicy` passes the single struct pointer `&line`, so the call
fails either way and `line` keeps its zero value. -/
def scanLine (columns : Nat) : ScanOutcome :=
  if columns = 1 then
    { line := {}, err := some "unknown destination type to scan into in variable #0" }
  else
    { line := {}, err := some ("expected " ++ toString columns ++ " columns but got 1 vars") }

/-- The store executing one query (gorqlite's `QueryOne`): the result set has
one row of seven columns per stored row, each scanned the way `LoadPolicy`
scans it. -/
def QueryOne (db : Store) (stmt : String) : Except Error QueryResult :=
  match parseStatement stmt with
  | some .selectAll =>
    match db with
    | none => .error "no such table"
    | some t => .ok (t.map (fun _ => scanLine resultColumns))
  | _ => .error "syntax error"

/-! ## The storage operations -/

/-- The engine's rule set (`model.Model`): section name to policy type to the
list of rules.  Go iterates a map in an unspecified order; here the order is
that of the association list. -/
abbrev AssertionMap := List (String × List (List String))

/-- The rule set, by section. -/
abbrev Model := List (String × AssertionMap)

/-- The map lookup `model[sec]`; a missing key gives the empty map. -/
def Model.sec (model : Model) (sec : String) : AssertionMap :=
  (List.lookup sec model).getD []

/-- The method `writeLine`. -/
def writeLine (db : Store) (line : CasbinRule) : Store × Option Error :=
  WriteOne db (writeLineStmt line)

/-- The method `writeLines`: stops at the first failing row. -/
def writeLines (db : Store) : List CasbinRule → Store × Option Error
  | [] => (db, none)
  | l :: ls =>
    match writeLine db l with
    | (db1, some err) => (db1, some err)
    | (db1, none) => writeLines db1 ls

/-- The method `AddPolicy`. -/
def AddPolicy (db : Store) (_sec : String) (ptype : String) (rule : List String) :
    Store × Option Error :=
  let line := savePolicyLine ptype rule
  writeLine db line

/-- The method `RemovePolicy`. -/
def RemovePolicy (db : Store) (_sec : String) (ptype : String) (rule : List String) :
    Store × Option Error :=
  WriteOne db (RemovePolicyStmt ptype rule)

/-- The method `removeLine`. -/
def removeLine (db : Store) (sec : String) (line : CasbinRule) : Store × Option Error :=
  RemovePolicy db sec line.PType (removeLineRules line)

/-- The method `RemoveFilteredPolicy`; `none` when it panics. -/
def RemoveFilteredPolicy (db : Store) (sec : String) (ptype : String) (fieldIndex : Int)
    (fieldValues : List String) : Option (Store × Option Error) :=
  (RemoveFilteredPolicyLine ptype fieldIndex fieldValues).map (removeLine db sec)

/-- The method `createTable`; the result of the write is discarded. -/
def createTable (db : Store) : Store :=
  (WriteOne db createTableStmt).1

/-- The method `dropTable`; the result of the write is discarded. -/
def dropTable (db : Store) : Store :=
  (WriteOne db dropTableStmt).1

/-- The rows `SavePolicy` collects from one section of the rule set. -/
def collectLines (assertions : AssertionMap) (lines : List CasbinRule) : List CasbinRule :=
  assertions.foldl
    (fun lines pa => pa.2.foldl (fun lines rule => lines ++ [savePolicyLine pa.1 rule]) lines)
    lines

/-- The method `SavePolicy`. -/
def SavePolicy (db : Store) (model : Model) : Store × Option Error :=
  let db := dropTable db
  let db := createTable db
  let lines : List CasbinRule := []
  let lines := collectLines (model.sec "p") lines
  let lines := collectLines (model.sec "g") lines
  writeLines db lines

/-- The loop of `LoadPolicy` over a result set: the state is the local `err`
and the lines forwarded so far. -/
def loadRows (result : QueryResult) (err : Option Error) (model : List String) :
    Option Error × List String :=
  result.foldl (fun st row => (row.err, loadPolicyLine row.line st.2)) (err, model)

/-- The method `LoadPolicy`, over any connection whose `QueryOne` is given:
the returned error and the lines forwarded to the engine. -/
def LoadPolicy (queryOne : String → Except Error QueryResult) (model : List String) :
    Option Error × List String :=
  match queryOne selectStmt with
  | .error err => (some err, model)
  | .ok result =>
    let st := loadRows result none model
    (none, st.2)

/-! ## Reading a policy line -/

/-- Splits a character list at every comma. -/
def splitComma : List Char → List (List Char)
  | [] => [[]]
  | c :: cs =>
    if c = ',' then [] :: splitComma cs
    else
      match splitComma cs with
      | [] => [[c]]
      | s :: ss => (c :: s) :: ss

/-- The comma-separated segments of a policy line, each without the blanks
that follow the comma. -/
def segments (line : String) : List String :=
  (splitComma line.data).map (fun seg => String.mk (seg.dropWhile (fun c => c == ' ')))

/-! ## Expected lines -/

/-- Removes the empty strings at the end of a field list. -/
def dropTrailingEmpty (rule : List String) : List String :=
  (rule.reverse.dropWhile (fun f => f == "")).reverse

/-- The policy type followed by `", " ++ field` for each of the given fields. -/
def joinLine (ptype : String) (fields : List String) : String :=
  fields.foldl (fun text f => text ++ (", " ++ f)) ptype

/-- The line of a rule with its fields kept in their original positions and
trailing empty fields omitted. -/
def positionalLine (ptype : String) (rule : List String) : String :=
  joinLine ptype (dropTrailingEmpty rule)

/-- The rules of the "p" and "g" sections of a rule set, each with its policy
type. -/
def Model.rules (model : Model) : List (String × List String) :=
  ((model.sec "p") ++ (model.sec "g")).flatMap (fun pa => pa.2.map (fun rule => (pa.1, rule)))

/-! ## Fixed pieces of the statement texts -/

/-- No single quote occurs in the string. -/
def quoteFree (s : String) : Prop := quoteChar ∉ s.data

instance (s : String) : Decidable (quoteFree s) := by
  unfold quoteFree
  infer_instance

/-- The fixed text of an INSERT statement up to the first value. -/
def insertOpen : List Char :=
  "INSERT OR IGNORE INTO rules (p_type, v0, v1, v2, v3, v4, v5) VALUES ('".data

/-- The fixed text between two values of an INSERT statement. -/
def valueSep : List Char := "', '".data

/-- The fixed text after the last value of an INSERT statement. -/
def valueClose : List Char := "')".data

/-- The fixed text of a DELETE statement up to the policy type. -/
def deleteOpen : List Char := "DELETE FROM rules WHERE p_type = '".data

/-- The fixed text between the policy type and the value of `v0`. -/
def andV0 : List Char := "' AND v0 = '".data

/-- The fixed text between the values of `v0` and `v1`. -/
def andV1 : List Char := "' AND v1 = '".data

/-- The fixed text between the values of `v1` and `v2`. -/
def andV2 : List Char := "' AND v2 = '".data

/-- The fixed text between the values of `v2` and `v3`. -/
def andV3 : List Char := "' AND v3 = '".data

/-- The fixed text between the values of `v3` and `v4`. -/
def andV4 : List Char := "' AND v4 = '".data

/-- The fixed text between the values of `v4` and `v5`. -/
def andV5 : List Char := "' AND v5 = '".data

/-- The closing quote of the last value of a condition. -/
def condClose : List Char := "'".data

/-! ## Encoding and decoding a row -/

theorem savePolicyLine_PType (ptype : String) (rule : List String) :
    (savePolicyLine ptype rule).PType = ptype := by
  rcases rule with _ | ⟨a, _ | ⟨b, _ | ⟨c, _ | ⟨d, _ | ⟨e, _ | ⟨f, r⟩⟩⟩⟩⟩⟩ <;>
    simp [savePolicyLine]

/-- Claim C3: the row `savePolicyLine ptype rule` has `PType = ptype` and, for
each column number `i` in `0..5`, column `v{i}` holds `rule[i]` when
`i < len(rule)` and the empty string otherwise.  Fields are never reordered
and fields beyond the supplied length are stored as the empty string. -/
theorem savePolicyLine_columns (ptype : String) (rule : List String) :
    (savePolicyLine ptype rule).PType = ptype ∧
    ∀ i : Fin 6,
      (savePolicyLine ptype rule).field i.val
        = if h : i.val < rule.length then rule[i.val] else "" := by
  refine ⟨savePolicyLine_PType ptype rule, ?_⟩
  intro i
  rcases rule with _ | ⟨a, _ | ⟨b, _ | ⟨c, _ | ⟨d, _ | ⟨e, _ | ⟨f, r⟩⟩⟩⟩⟩⟩ <;>
    fin_cases i <;>
    simp [savePolicyLine, CasbinRule.field, CasbinRule.fields]

/-- Claim C4 (absent-field symmetry): for a field list of length at most 6
whose fields are all non-empty, the line text `loadPolicyLine` builds from the
row `savePolicyLine ptype fields` is `ptype` followed by `", " ++ field` for
each field in order, with nothing after the last supplied field. -/
theorem loadPolicyLine_savePolicyLine (ptype : String) (fields : List String)
    (hlen : fields.length ≤ 6) (hne : ∀ f ∈ fields, f ≠ "") :
    loadPolicyLineText (savePolicyLine ptype fields) = joinLine ptype fields := by
  rcases fields with _ | ⟨a, _ | ⟨b, _ | ⟨c, _ | ⟨d, _ | ⟨e, _ | ⟨f, _ | ⟨g, r⟩⟩⟩⟩⟩⟩⟩
  all_goals first
    | (exfalso; simp only [List.length_cons] at hlen; omega)
    | (simp at hne; simp [savePolicyLine, loadPolicyLineText, joinLine, hne])

theorem loadPolicyLine_savePolicyLine_witness :
    loadPolicyLineText (savePolicyLine "p" ["alice", "room"]) = joinLine "p" ["alice", "room"] ∧
    joinLine "p" ["alice", "room"] = "p, alice, room" :=
  ⟨loadPolicyLine_savePolicyLine "p" ["alice", "room"] (by decide) (by decide), by decide⟩

theorem loadPolicyLineText_eq_joinLine (row : CasbinRule) :
    loadPolicyLineText row = joinLine row.PType (row.fields.filter (fun f => f ≠ "")) := by
  rcases row with ⟨p, a, b, c, d, e, f⟩
  simp only [loadPolicyLineText, CasbinRule.fields, joinLine]
  by_cases ha : a = "" <;> by_cases hb : b = "" <;> by_cases hc : c = "" <;>
    by_cases hd : d = "" <;> by_cases he : e = "" <;> by_cases hf : f = "" <;>
    simp [ha, hb, hc, hd, he, hf, List.filter]

theorem splitComma_length (l : List Char) : (splitComma l).length = l.count ',' + 1 := by
  induction l with
  | nil => rfl
  | cons c cs ih =>
    by_cases hc : c = ','
    · subst hc
      simp [splitComma, ih]
    · have hc2 : (c == ',') = false := by simpa using hc
      cases hs : splitComma cs with
      | nil => rw [hs] at ih; simp at ih
      | cons s ss =>
        rw [hs] at ih
        simp only [splitComma, hc, if_false, hs, List.length_cons] at ih ⊢
        rw [List.count_cons, hc2]
        simpa using ih

theorem segments_length (line : String) :
    (segments line).length = line.data.count ',' + 1 := by
  simp [segments, splitComma_length]

theorem count_comma_joinLine (fs : List String) :
    ∀ p : String, (∀ f ∈ fs, ',' ∉ f.data) →
      (joinLine p fs).data.count ',' = p.data.count ',' + fs.length := by
  induction fs with
  | nil => intro p _; simp [joinLine]
  | cons f fs ih =>
    intro p h
    have hf : f.data.count ',' = 0 := List.count_eq_zero.mpr (h f (by simp))
    have hsep : ", ".data.count ',' = 1 := by decide
    have := ih (p ++ (", " ++ f)) (fun g hg => h g (by simp [hg]))
    simp only [joinLine, List.foldl_cons] at this ⊢
    rw [this]
    simp only [String.data_append, List.count_append, hf, hsep, List.length_cons]
    omega

/-- Claim C5, as amended: for every row, the line text `loadPolicyLine` builds
is the policy type followed by `", " ++ value` for each non-empty field in
column order.  Every empty field is omitted, also one that comes before a
later non-empty field, so the later fields move forward: with comma-free
values the line has exactly (number of non-empty fields + 1) comma-separated
segments. -/
theorem loadPolicyLine_omits_every_empty_field (row : CasbinRule)
    (hp : ',' ∉ row.PType.data) (hf : ∀ f ∈ row.fields, ',' ∉ f.data) :
    loadPolicyLineText row = joinLine row.PType (row.fields.filter (fun f => f ≠ "")) ∧
    (segments (loadPolicyLineText row)).length
      = (row.fields.filter (fun f => f ≠ "")).length + 1 := by
  refine ⟨loadPolicyLineText_eq_joinLine row, ?_⟩
  rw [segments_length, loadPolicyLineText_eq_joinLine, count_comma_joinLine]
  · rw [List.count_eq_zero.mpr hp]; omega
  · intro f hmem
    exact hf f (List.mem_of_mem_filter hmem)

theorem loadPolicyLine_omits_every_empty_field_witness :
    (loadPolicyLineText ⟨"p", "a", "", "c", "", "", ""⟩
        = joinLine "p" ((CasbinRule.fields ⟨"p", "a", "", "c", "", "", ""⟩).filter (fun f => f ≠ "")) ∧
      (segments (loadPolicyLineText ⟨"p", "a", "", "c", "", "", ""⟩)).length
        = ((CasbinRule.fields ⟨"p", "a", "", "c", "", "", ""⟩).filter (fun f => f ≠ "")).length + 1) ∧
    loadPolicyLineText ⟨"p", "a", "", "c", "", "", ""⟩ = "p, a, c" :=
  ⟨loadPolicyLine_omits_every_empty_field ⟨"p", "a", "", "c", "", "", ""⟩ (by decide) (by decide),
    by decide⟩

/-- Claim C5 as stated fails on the row (p, "a", "", "c"): the last non-empty
field has index 2, so the claim asks for 2 + 2 segments with an empty third
segment and "c" as the fourth, but the line has the three segments
"p", "a", "c". -/
theorem loadPolicyLine_internal_empty_counterexample :
    segments (loadPolicyLineText ⟨"p", "a", "", "c", "", "", ""⟩) = ["p", "a", "c"] ∧
    (segments (loadPolicyLineText ⟨"p", "a", "", "c", "", "", ""⟩)).length ≠ 2 + 2 ∧
    (segments (loadPolicyLineText ⟨"p", "a", "", "c", "", "", ""⟩))[2]? ≠ some "" ∧
    (segments (loadPolicyLineText ⟨"p", "a", "", "c", "", "", ""⟩))[3]? ≠ some "c" := by
  decide

/-! ## Loading -/

theorem loadRows_lines (result : QueryResult) :
    ∀ (err : Option Error) (model : List String),
      (loadRows result err model).2 = model ++ result.map (fun r => loadPolicyLineText r.line) := by
  induction result with
  | nil => intro err model; simp [loadRows]
  | cons r rs ih =>
    intro err model
    have := ih r.err (loadPolicyLine r.line model)
    simp only [loadRows, List.foldl_cons] at this ⊢
    rw [this]
    simp [loadPolicyLine]

theorem LoadPolicy_of_result (queryOne : String → Except Error QueryResult)
    (result : QueryResult) (model : List String) (hq : queryOne selectStmt = .ok result) :
    LoadPolicy queryOne model
      = (none, model ++ result.map (fun r => loadPolicyLineText r.line)) := by
  simp [LoadPolicy, hq, loadRows_lines]

/-- Claim C9 fails on the code: on a result set whose first row fails to scan
(leaving the zero row) and whose second row scans, `LoadPolicy` returns `nil`
and forwards a line for the failing row and for the row after it. -/
theorem LoadPolicy_ignores_scan_errors :
    LoadPolicy
        (fun _ => .ok [{ line := {}, err := some "scan failed" },
                       { line := ⟨"p", "alice", "room", "read", "", "", ""⟩, err := none }]) []
      = (none, ["", "p, alice, room, read"]) :=
  LoadPolicy_of_result _
    [{ line := {}, err := some "scan failed" },
     { line := ⟨"p", "alice", "room", "read", "", "", ""⟩, err := none }] [] rfl

/-! ## The filter row -/

theorem filterIndex_in_range (fieldIndex : Int) (fieldValues : List String)
    (hlo : intMin ≤ fieldIndex) (hhi : fieldIndex ≤ intMax)
    (hlen : (fieldValues.length : Int) ≤ intMax) (i : Int) (h0 : 0 ≤ i) (h5 : i ≤ 5)
    (hg : filterGuard fieldIndex fieldValues i = true) :
    0 ≤ filterIndex fieldIndex i ∧ filterIndex fieldIndex i < fieldValues.length := by
  simp only [filterGuard, Bool.and_eq_true, decide_eq_true_eq] at hg
  obtain ⟨h1, h2⟩ := hg
  unfold filterIndex
  unfold intMin at hlo
  unfold intMax at hhi hlen
  unfold wrapInt at h2 ⊢
  omega

theorem goIndex_of_guard (fieldIndex : Int) (fieldValues : List String)
    (hlo : intMin ≤ fieldIndex) (hhi : fieldIndex ≤ intMax)
    (hlen : (fieldValues.length : Int) ≤ intMax) (i : Int) (h0 : 0 ≤ i) (h5 : i ≤ 5)
    (hg : filterGuard fieldIndex fieldValues i = true) :
    ∃ v, goIndex fieldValues (filterIndex fieldIndex i) = some v := by
  obtain ⟨h1, h2⟩ := filterIndex_in_range fieldIndex fieldValues hlo hhi hlen i h0 h5 hg
  have hlt : (filterIndex fieldIndex i).toNat < fieldValues.length := by omega
  exact ⟨fieldValues[(filterIndex fieldIndex i).toNat], by
    simp [goIndex, h1, List.getElem?_eq_getElem hlt]⟩

theorem filterStep_isSome (g : Bool) (o : Option String) (mk : String → CasbinRule)
    (line : CasbinRule) (k : CasbinRule → Option CasbinRule)
    (h : g = false ∨ ∃ v, o = some v) (hk : ∀ l, (k l).isSome = true) :
    ((if g = true then o.map mk else some line).bind k).isSome = true := by
  rcases h with h | ⟨v, h⟩
  · subst h
    simpa using hk line
  · subst h
    cases g <;> simpa using hk _

/-- Claim C10: for every `fieldIndex` of Go's `int` range (negative, zero or
positive) and every `fieldValues` slice of any length, whenever the guard
`fieldIndex <= i && i < fieldIndex + len(fieldValues)` holds for a column
number `i` in `0..5`, the index `i - fieldIndex` lies in
`0 <= i - fieldIndex < len(fieldValues)`, with the sum and the difference
computed in wrap-around arithmetic; so building the filter row never panics. -/
theorem RemoveFilteredPolicy_index_in_range (ptype : String) (fieldIndex : Int)
    (fieldValues : List String)
    (hlo : intMin ≤ fieldIndex) (hhi : fieldIndex ≤ intMax)
    (hlen : (fieldValues.length : Int) ≤ intMax) :
    (∀ i : Int, 0 ≤ i → i ≤ 5 → filterGuard fieldIndex fieldValues i = true →
      0 ≤ filterIndex fieldIndex i ∧ filterIndex fieldIndex i < fieldValues.length) ∧
    (RemoveFilteredPolicyLine ptype fieldIndex fieldValues).isSome = true := by
  refine ⟨fun i h0 h5 hg =>
    filterIndex_in_range fieldIndex fieldValues hlo hhi hlen i h0 h5 hg, ?_⟩
  have key : ∀ i : Int, 0 ≤ i → i ≤ 5 → filterGuard fieldIndex fieldValues i = false ∨
      ∃ v, goIndex fieldValues (filterIndex fieldIndex i) = some v := by
    intro i h0 h5
    cases hg : filterGuard fieldIndex fieldValues i with
    | false => exact Or.inl rfl
    | true => exact Or.inr (goIndex_of_guard fieldIndex fieldValues hlo hhi hlen i h0 h5 hg)
  unfold RemoveFilteredPolicyLine
  refine filterStep_isSome _ _ _ _ _ (key 0 (by omega) (by omega)) (fun l0 => ?_)
  refine filterStep_isSome _ _ _ _ _ (key 1 (by omega) (by omega)) (fun l1 => ?_)
  refine filterStep_isSome _ _ _ _ _ (key 2 (by omega) (by omega)) (fun l2 => ?_)
  refine filterStep_isSome _ _ _ _ _ (key 3 (by omega) (by omega)) (fun l3 => ?_)
  refine filterStep_isSome _ _ _ _ _ (key 4 (by omega) (by omega)) (fun l4 => ?_)
  refine filterStep_isSome _ _ _ _ _ (key 5 (by omega) (by omega)) (fun l5 => ?_)
  rfl

theorem RemoveFilteredPolicy_index_in_range_witness :
    (intMin ≤ -2 ∧ (-2 : Int) ≤ intMax ∧
      (((["a", "b", "c", "d"] : List String).length : Nat) : Int) ≤ intMax) ∧
    (∀ i : Int, 0 ≤ i → i ≤ 5 → filterGuard (-2) ["a", "b", "c", "d"] i = true →
      0 ≤ filterIndex (-2) i ∧ filterIndex (-2) i < (["a", "b", "c", "d"] : List String).length) ∧
    (RemoveFilteredPolicyLine "p" (-2) ["a", "b", "c", "d"]).isSome = true :=
  ⟨⟨by decide, by decide, by decide⟩,
    RemoveFilteredPolicy_index_in_range "p" (-2) ["a", "b", "c", "d"]
      (by decide) (by decide) (by decide)⟩

theorem RemoveFilteredPolicyLine_zero (ptype : String) (fields : List String)
    (hlen : fields.length ≤ 6) :
    RemoveFilteredPolicyLine ptype 0 fields = some (savePolicyLine ptype fields) := by
  rcases fields with _ | ⟨a, _ | ⟨b, _ | ⟨c, _ | ⟨d, _ | ⟨e, _ | ⟨f, _ | ⟨g, r⟩⟩⟩⟩⟩⟩⟩
  all_goals first
    | (exfalso; simp only [List.length_cons] at hlen; omega)
    | simp [RemoveFilteredPolicyLine, filterGuard, filterIndex, wrapInt, goIndex, savePolicyLine]

/-! ## Tokenising the statement texts -/

theorem lex_inLit (v : List Char) (hq : quoteChar ∉ v) :
    ∀ (acc : List Char) (out : List Token),
      List.foldl lexStep (.inLit acc, out) v = (.inLit (v.reverse ++ acc), out) := by
  induction v with
  | nil => intro acc out; rfl
  | cons c cs ih =>
    intro acc out
    have hc : c ≠ quoteChar := fun h => hq (by simp [h])
    have hcs : quoteChar ∉ cs := fun h => hq (by simp [h])
    simp only [List.foldl_cons, lexStep, hc, if_false]
    rw [ih hcs]
    simp

theorem lex_insertOpen :
    List.foldl lexStep (.start, []) insertOpen = (.inLit [], insertHead.reverse) := by
  rfl

theorem lex_valueSep (acc : List Char) (out : List Token) :
    List.foldl lexStep (.inLit acc, out) valueSep
      = (.inLit [], .sym ',' :: .lit (String.mk acc.reverse) :: out) := by
  rfl

theorem lex_valueClose (acc : List Char) (out : List Token) :
    List.foldl lexStep (.inLit acc, out) valueClose
      = (.start, .sym ')' :: .lit (String.mk acc.reverse) :: out) := by
  rfl

theorem writeLineStmt_data (line : CasbinRule) :
    (writeLineStmt line).data =
      insertOpen ++
        (line.PType.data ++ (valueSep ++ (line.V0.data ++ (valueSep ++
        (line.V1.data ++ (valueSep ++ (line.V2.data ++ (valueSep ++
        (line.V3.data ++ (valueSep ++ (line.V4.data ++ (valueSep ++
        (line.V5.data ++ valueClose))))))))))))) := by
  simp [writeLineStmt, tableName, String.data_append, insertOpen, valueSep, valueClose]

theorem tokenize_writeLineStmt (line : CasbinRule)
    (hp : quoteFree line.PType) (h0 : quoteFree line.V0) (h1 : quoteFree line.V1)
    (h2 : quoteFree line.V2) (h3 : quoteFree line.V3) (h4 : quoteFree line.V4)
    (h5 : quoteFree line.V5) :
    tokenize (writeLineStmt line) = some (insertHead ++
      [.lit line.PType, .sym ',', .lit line.V0, .sym ',', .lit line.V1, .sym ',',
       .lit line.V2, .sym ',', .lit line.V3, .sym ',', .lit line.V4, .sym ',',
       .lit line.V5, .sym ')']) := by
  unfold quoteFree at *
  simp only [tokenize, writeLineStmt_data, List.foldl_append, lex_insertOpen, lex_inLit _ hp,
    lex_inLit _ h0, lex_inLit _ h1, lex_inLit _ h2, lex_inLit _ h3, lex_inLit _ h4,
    lex_inLit _ h5, lex_valueSep, lex_valueClose, lexFinish]
  simp

theorem dropHead_append (pre rest : List Token) : dropHead pre (pre ++ rest) = some rest := by
  induction pre with
  | nil => cases rest <;> rfl
  | cons p ps ih => simp [dropHead, ih]

theorem parseStatement_writeLineStmt (line : CasbinRule)
    (hp : quoteFree line.PType) (h0 : quoteFree line.V0) (h1 : quoteFree line.V1)
    (h2 : quoteFree line.V2) (h3 : quoteFree line.V3) (h4 : quoteFree line.V4)
    (h5 : quoteFree line.V5) :
    parseStatement (writeLineStmt line) = some (.insertIgnore line) := by
  have hd : ∀ rest : List Token, insertHead ++ rest ≠ dropTokens := by
    intro rest h; simp [insertHead, dropTokens] at h
  have hc : ∀ rest : List Token, insertHead ++ rest ≠ createTokens := by
    intro rest h; simp [insertHead, createTokens] at h
  have hs : ∀ rest : List Token, insertHead ++ rest ≠ selectTokens := by
    intro rest h; simp [insertHead, selectTokens] at h
  simp only [parseStatement, tokenize_writeLineStmt line hp h0 h1 h2 h3 h4 h5, hd, hc, hs,
    if_false, parseInsert, dropHead_append]
  simp [parseLiterals]



theorem lex_deleteOpen :
    List.foldl lexStep (.start, []) deleteOpen
      = (.inLit [], .sym '=' :: .word "p_type" :: deleteHead.reverse) := by
  rfl

theorem lex_andV0 (acc : List Char) (out : List Token) :
    List.foldl lexStep (.inLit acc, out) andV0
      = (.inLit [], .sym '=' :: .word "v0" :: .word "AND" :: .lit (String.mk acc.reverse) :: out) := by
  rfl

theorem lex_andV1 (acc : List Char) (out : List Token) :
    List.foldl lexStep (.inLit acc, out) andV1
      = (.inLit [], .sym '=' :: .word "v1" :: .word "AND" :: .lit (String.mk acc.reverse) :: out) := by
  rfl

theorem lex_andV2 (acc : List Char) (out : List Token) :
    List.foldl lexStep (.inLit acc, out) andV2
      = (.inLit [], .sym '=' :: .word "v2" :: .word "AND" :: .lit (String.mk acc.reverse) :: out) := by
  rfl

theorem lex_andV3 (acc : List Char) (out : List Token) :
    List.foldl lexStep (.inLit acc, out) andV3
      = (.inLit [], .sym '=' :: .word "v3" :: .word "AND" :: .lit (String.mk acc.reverse) :: out) := by
  rfl

theorem lex_andV4 (acc : List Char) (out : List Token) :
    List.foldl lexStep (.inLit acc, out) andV4
      = (.inLit [], .sym '=' :: .word "v4" :: .word "AND" :: .lit (String.mk acc.reverse) :: out) := by
  rfl

theorem lex_andV5 (acc : List Char) (out : List Token) :
    List.foldl lexStep (.inLit acc, out) andV5
      = (.inLit [], .sym '=' :: .word "v5" :: .word "AND" :: .lit (String.mk acc.reverse) :: out) := by
  rfl

theorem lex_condClose (acc : List Char) (out : List Token) :
    List.foldl lexStep (.inLit acc, out) condClose = (.afterQuote acc, out) := by
  rfl

theorem RemovePolicyStmt_data (p a b c d e f : String) :
    (RemovePolicyStmt p [a, b, c, d, e, f]).data =
      deleteOpen ++ (p.data ++ (andV0 ++ (a.data ++ (andV1 ++ (b.data ++ (andV2 ++ (c.data ++
        (andV3 ++ (d.data ++ (andV4 ++ (e.data ++ (andV5 ++ (f.data ++ condClose))))))))))))) := by
  simp [RemovePolicyStmt, RemovePolicyCondition, tableName, String.data_append, deleteOpen,
    andV0, andV1, andV2, andV3, andV4, andV5, condClose]

theorem tokenize_RemovePolicyStmt (p a b c d e f : String)
    (hp : quoteFree p) (ha : quoteFree a) (hb : quoteFree b) (hc : quoteFree c)
    (hd : quoteFree d) (he : quoteFree e) (hf : quoteFree f) :
    tokenize (RemovePolicyStmt p [a, b, c, d, e, f]) = some (deleteHead ++
      [.word "p_type", .sym '=', .lit p, .word "AND", .word "v0", .sym '=', .lit a,
       .word "AND", .word "v1", .sym '=', .lit b, .word "AND", .word "v2", .sym '=', .lit c,
       .word "AND", .word "v3", .sym '=', .lit d, .word "AND", .word "v4", .sym '=', .lit e,
       .word "AND", .word "v5", .sym '=', .lit f]) := by
  unfold quoteFree at *
  simp only [tokenize, RemovePolicyStmt_data, List.foldl_append, lex_deleteOpen, lex_inLit _ hp,
    lex_inLit _ ha, lex_inLit _ hb, lex_inLit _ hc, lex_inLit _ hd, lex_inLit _ he,
    lex_inLit _ hf, lex_andV0, lex_andV1, lex_andV2, lex_andV3, lex_andV4, lex_andV5,
    lex_condClose, lexFinish]
  simp

theorem parseStatement_RemovePolicyStmt (p a b c d e f : String)
    (hp : quoteFree p) (ha : quoteFree a) (hb : quoteFree b) (hc : quoteFree c)
    (hd : quoteFree d) (he : quoteFree e) (hf : quoteFree f) :
    parseStatement (RemovePolicyStmt p [a, b, c, d, e, f]) = some (.delete
      [("p_type", p), ("v0", a), ("v1", b), ("v2", c), ("v3", d), ("v4", e), ("v5", f)]) := by
  have hd1 : ∀ rest : List Token, deleteHead ++ rest ≠ dropTokens := by
    intro rest h; simp [deleteHead, dropTokens] at h
  have hc1 : ∀ rest : List Token, deleteHead ++ rest ≠ createTokens := by
    intro rest h; simp [deleteHead, createTokens] at h
  have hs1 : ∀ rest : List Token, deleteHead ++ rest ≠ selectTokens := by
    intro rest h; simp [deleteHead, selectTokens] at h
  have hi : ∀ rest : List Token, dropHead insertHead (deleteHead ++ rest) = none := by
    intro rest; simp [deleteHead, insertHead, dropHead]
  simp only [parseStatement, tokenize_RemovePolicyStmt p a b c d e f hp ha hb hc hd he hf,
    hd1, hc1, hs1, if_false, parseInsert, hi, parseDelete, dropHead_append, Option.orElse]
  simp [parseCondition, validCondition, CasbinRule.column]

theorem satisfies_all_columns (p a b c d e f : String) (row : CasbinRule) :
    satisfies [("p_type", p), ("v0", a), ("v1", b), ("v2", c), ("v3", d), ("v4", e), ("v5", f)]
      row = decide (row = ⟨p, a, b, c, d, e, f⟩) := by
  rcases row with ⟨p', a', b', c', d', e', f'⟩
  simp [satisfies, CasbinRule.column]



theorem quoteFree_empty : quoteFree "" := by
  simp [quoteFree]

theorem savePolicyLine_quoteFree (ptype : String) (rule : List String)
    (hp : quoteFree ptype) (hr : ∀ f ∈ rule, quoteFree f) :
    quoteFree (savePolicyLine ptype rule).PType ∧ quoteFree (savePolicyLine ptype rule).V0 ∧
    quoteFree (savePolicyLine ptype rule).V1 ∧ quoteFree (savePolicyLine ptype rule).V2 ∧
    quoteFree (savePolicyLine ptype rule).V3 ∧ quoteFree (savePolicyLine ptype rule).V4 ∧
    quoteFree (savePolicyLine ptype rule).V5 := by
  have he := quoteFree_empty
  rcases rule with _ | ⟨a, _ | ⟨b, _ | ⟨c, _ | ⟨d, _ | ⟨e, _ | ⟨f, r⟩⟩⟩⟩⟩⟩ <;>
    simp_all [savePolicyLine]

theorem WriteOne_writeLineStmt (t : Table) (line : CasbinRule)
    (hp : quoteFree line.PType) (h0 : quoteFree line.V0) (h1 : quoteFree line.V1)
    (h2 : quoteFree line.V2) (h3 : quoteFree line.V3) (h4 : quoteFree line.V4)
    (h5 : quoteFree line.V5) :
    WriteOne (some t) (writeLineStmt line) = (some (insertOrIgnore line t), none) := by
  simp [WriteOne, parseStatement_writeLineStmt line hp h0 h1 h2 h3 h4 h5]

theorem insertOrIgnore_mem (row r : CasbinRule) (t : Table) :
    r ∈ insertOrIgnore row t ↔ r ∈ t ∨ r = row := by
  unfold insertOrIgnore
  split_ifs with h
  · constructor
    · exact Or.inl
    · rintro (h1 | rfl)
      · exact h1
      · exact h
  · simp

theorem insertOrIgnore_nodup (row : CasbinRule) (t : Table) (h : t.Nodup) :
    (insertOrIgnore row t).Nodup := by
  unfold insertOrIgnore
  split_ifs with hm
  · exact h
  · rw [List.nodup_append]
    refine ⟨h, List.nodup_singleton row, ?_⟩
    intro a ha hb
    simp only [List.mem_singleton] at hb
    subst hb
    exact hm ha

theorem insertOrIgnore_twice (row : CasbinRule) (t : Table) :
    insertOrIgnore row (insertOrIgnore row t) = insertOrIgnore row t := by
  have hm : row ∈ insertOrIgnore row t := (insertOrIgnore_mem row row t).mpr (Or.inr rfl)
  generalize insertOrIgnore row t = t1 at hm ⊢
  simp [insertOrIgnore, hm]

/-! ## The INSERT statement -/

/-- Claim C7, as amended: for every row whose seven values contain no single
quote, the INSERT statement text built by `writeLine` tokenises into the fixed
statement head followed by exactly seven string literals, one per value and
each denoting that value, and reading the VALUES list back yields the same
seven strings. -/
theorem writeLine_reads_back_quote_free (line : CasbinRule)
    (h : ∀ v ∈ line.PType :: line.fields, quoteFree v) :
    tokenize (writeLineStmt line) = some (insertHead ++
      [.lit line.PType, .sym ',', .lit line.V0, .sym ',', .lit line.V1, .sym ',',
       .lit line.V2, .sym ',', .lit line.V3, .sym ',', .lit line.V4, .sym ',',
       .lit line.V5, .sym ')']) ∧
    insertedRow (writeLineStmt line) = some line := by
  simp only [CasbinRule.fields, List.mem_cons, forall_eq_or_imp, List.mem_singleton,
    forall_eq, List.not_mem_nil, false_imp_iff, implies_true, and_true] at h
  obtain ⟨hp, h0, h1, h2, h3, h4, h5⟩ := h
  refine ⟨tokenize_writeLineStmt line hp h0 h1 h2 h3 h4 h5, ?_⟩
  simp [insertedRow, parseStatement_writeLineStmt line hp h0 h1 h2 h3 h4 h5]

theorem writeLine_reads_back_quote_free_witness :
    tokenize (writeLineStmt ⟨"p", "alice", "room", "read", "", "", ""⟩) = some (insertHead ++
      [.lit "p", .sym ',', .lit "alice", .sym ',', .lit "room", .sym ',',
       .lit "read", .sym ',', .lit "", .sym ',', .lit "", .sym ',', .lit "", .sym ')']) ∧
    insertedRow (writeLineStmt ⟨"p", "alice", "room", "read", "", "", ""⟩)
      = some ⟨"p", "alice", "room", "read", "", "", ""⟩ :=
  writeLine_reads_back_quote_free ⟨"p", "alice", "room", "read", "", "", ""⟩ (by decide)

/-- Claim C7 as stated fails on a row whose `v0` is O'Brien: the value is
embedded unescaped, its quote ends the literal early, and the text is no
longer a seven-value INSERT, so the VALUES list does not read back. -/
theorem writeLine_quote_counterexample :
    writeLineStmt ⟨"p", "O'Brien", "", "", "", "", ""⟩
      = "INSERT OR IGNORE INTO rules (p_type, v0, v1, v2, v3, v4, v5) VALUES ('p', 'O'Brien', '', '', '', '', '')" ∧
    insertedRow (writeLineStmt ⟨"p", "O'Brien", "", "", "", "", ""⟩) = none ∧
    insertedRow (writeLineStmt ⟨"p", "O'Brien", "", "", "", "", ""⟩)
      ≠ some ⟨"p", "O'Brien", "", "", "", "", ""⟩ := by
  decide

/-- Claim C8 (idempotent add): over a table without duplicate rows and with
INSERT OR IGNORE semantics, for a policy type and fields free of single
quotes, calling `AddPolicy` twice with the same arguments succeeds both times
and leaves the same table as calling it once, and that table holds exactly one
row equal to `savePolicyLine ptype rule`. -/
theorem AddPolicy_twice (t : Table) (sec ptype : String) (rule : List String)
    (hnd : t.Nodup) (hp : quoteFree ptype) (hr : ∀ f ∈ rule, quoteFree f) :
    (AddPolicy (some t) sec ptype rule).2 = none ∧
    (AddPolicy (AddPolicy (some t) sec ptype rule).1 sec ptype rule).2 = none ∧
    (AddPolicy (AddPolicy (some t) sec ptype rule).1 sec ptype rule).1
      = (AddPolicy (some t) sec ptype rule).1 ∧
    ∃ t1 : Table, (AddPolicy (some t) sec ptype rule).1 = some t1 ∧ t1.Nodup ∧
      t1.count (savePolicyLine ptype rule) = 1 := by
  obtain ⟨h, h0, h1, h2, h3, h4, h5⟩ := savePolicyLine_quoteFree ptype rule hp hr
  have step : ∀ t0 : Table, AddPolicy (some t0) sec ptype rule
      = (some (insertOrIgnore (savePolicyLine ptype rule) t0), none) := fun t0 =>
    WriteOne_writeLineStmt t0 _ h h0 h1 h2 h3 h4 h5
  simp only [step, insertOrIgnore_twice, true_and]
  have hnd1 := insertOrIgnore_nodup (savePolicyLine ptype rule) t hnd
  refine ⟨_, rfl, hnd1, ?_⟩
  exact List.count_eq_one_of_mem hnd1 ((insertOrIgnore_mem _ _ t).mpr (Or.inr rfl))

theorem AddPolicy_twice_witness :
    (AddPolicy (some [⟨"p", "bob", "room", "read", "", "", ""⟩]) "p" "p" ["alice", "room"]).2 = none ∧
    (AddPolicy (AddPolicy (some [⟨"p", "bob", "room", "read", "", "", ""⟩]) "p" "p"
      ["alice", "room"]).1 "p" "p" ["alice", "room"]).2 = none ∧
    (AddPolicy (AddPolicy (some [⟨"p", "bob", "room", "read", "", "", ""⟩]) "p" "p"
      ["alice", "room"]).1 "p" "p" ["alice", "room"]).1
      = (AddPolicy (some [⟨"p", "bob", "room", "read", "", "", ""⟩]) "p" "p" ["alice", "room"]).1 ∧
    ∃ t1 : Table,
      (AddPolicy (some [⟨"p", "bob", "room", "read", "", "", ""⟩]) "p" "p" ["alice", "room"]).1
        = some t1 ∧ t1.Nodup ∧ t1.count (savePolicyLine "p" ["alice", "room"]) = 1 :=
  AddPolicy_twice [⟨"p", "bob", "room", "read", "", "", ""⟩] "p" "p" ["alice", "room"]
    (by decide) (by decide) (by decide)

/-! ## The DELETE statement -/

theorem RemoveFilteredPolicyStmt_zero (ptype : String) (fields : List String)
    (hlen : fields.length ≤ 6) :
    RemoveFilteredPolicyStmt ptype 0 fields
      = some (RemovePolicyStmt ptype (savePolicyLine ptype fields).fields) := by
  rw [RemoveFilteredPolicyStmt, RemoveFilteredPolicyLine_zero ptype fields hlen]
  have hpt : (savePolicyLine ptype fields).PType = ptype := savePolicyLine_PType ptype fields
  simp only [Option.map_some', hpt]
  rfl

theorem parseStatement_exact (ptype : String) (fields : List String)
    (hp : quoteFree ptype) (hf : ∀ f ∈ fields, quoteFree f) :
    parseStatement (RemovePolicyStmt ptype (savePolicyLine ptype fields).fields)
      = some (.delete
          [("p_type", ptype), ("v0", (savePolicyLine ptype fields).V0),
           ("v1", (savePolicyLine ptype fields).V1), ("v2", (savePolicyLine ptype fields).V2),
           ("v3", (savePolicyLine ptype fields).V3), ("v4", (savePolicyLine ptype fields).V4),
           ("v5", (savePolicyLine ptype fields).V5)]) := by
  obtain ⟨_, h0, h1, h2, h3, h4, h5⟩ := savePolicyLine_quoteFree ptype fields hp hf
  exact parseStatement_RemovePolicyStmt ptype _ _ _ _ _ _ hp h0 h1 h2 h3 h4 h5

/-- Claim C2: for a policy type and a field list of length at most 6, all free
of single quotes, `RemoveFilteredPolicy(sec, ptype, 0, fields...)` builds a
DELETE statement whose condition a row satisfies if and only if the row equals
`savePolicyLine ptype fields`; run against a table it removes that row and no
other. -/
theorem RemoveFilteredPolicy_exact_rule (ptype : String) (fields : List String)
    (hlen : fields.length ≤ 6) (hp : quoteFree ptype) (hf : ∀ f ∈ fields, quoteFree f) :
    ∃ stmt : String, RemoveFilteredPolicyStmt ptype 0 fields = some stmt ∧
      (∀ row : CasbinRule,
        deleteMatches stmt row = some true ↔ row = savePolicyLine ptype fields) ∧
      ∀ (t : Table) (sec : String),
        RemoveFilteredPolicy (some t) sec ptype 0 fields
          = some (some (t.filter (fun r => decide (r ≠ savePolicyLine ptype fields))), none) := by
  have hpt : (savePolicyLine ptype fields).PType = ptype := savePolicyLine_PType ptype fields
  have heta : (⟨ptype, (savePolicyLine ptype fields).V0, (savePolicyLine ptype fields).V1,
      (savePolicyLine ptype fields).V2, (savePolicyLine ptype fields).V3,
      (savePolicyLine ptype fields).V4, (savePolicyLine ptype fields).V5⟩ : CasbinRule)
        = savePolicyLine ptype fields := by
    revert hpt
    generalize savePolicyLine ptype fields = l
    rintro rfl
    rfl
  refine ⟨_, RemoveFilteredPolicyStmt_zero ptype fields hlen, ?_, ?_⟩
  · intro row
    simp only [deleteMatches, parseStatement_exact ptype fields hp hf, satisfies_all_columns,
      heta, Option.some.injEq, decide_eq_true_eq]
  · intro t sec
    rw [RemoveFilteredPolicy, RemoveFilteredPolicyLine_zero ptype fields hlen]
    simp only [Option.map_some', removeLine, RemovePolicy, hpt, WriteOne]
    have hr : removeLineRules (savePolicyLine ptype fields) = (savePolicyLine ptype fields).fields :=
      rfl
    rw [hr, parseStatement_exact ptype fields hp hf]
    simp only [satisfies_all_columns, heta]
    congr 3
    apply List.filter_congr
    intro r _
    simp

theorem RemoveFilteredPolicy_exact_rule_witness :
    ∃ stmt : String, RemoveFilteredPolicyStmt "p" 0 ["alice", "room", "read"] = some stmt ∧
      (∀ row : CasbinRule,
        deleteMatches stmt row = some true ↔ row = savePolicyLine "p" ["alice", "room", "read"]) ∧
      ∀ (t : Table) (sec : String),
        RemoveFilteredPolicy (some t) sec "p" 0 ["alice", "room", "read"]
          = some (some (t.filter
              (fun r => decide (r ≠ savePolicyLine "p" ["alice", "room", "read"]))), none) :=
  RemoveFilteredPolicy_exact_rule "p" ["alice", "room", "read"] (by decide) (by decide)
    (by decide)

set_option maxRecDepth 100000 in
/-- Claim C1 fails on the code at its own example.  With the rows
(p,alice,room,read), (p,alice,room,write), (p,bob,room,read), the call with
`fieldIndex = 1` and `[room, write]` builds a condition that also demands
`v0 = ''` and `v3 = '' .. v5 = ''`; the second row does not satisfy it and no
row is deleted.  The call with `fieldIndex = 0` and `[alice]` deletes nothing
either. -/
theorem RemoveFilteredPolicy_offset_filter_deletes_nothing :
    RemoveFilteredPolicyStmt "p" 1 ["room", "write"]
      = some "DELETE FROM rules WHERE p_type = 'p' AND v0 = '' AND v1 = 'room' AND v2 = 'write' AND v3 = '' AND v4 = '' AND v5 = ''" ∧
    deleteMatches
        "DELETE FROM rules WHERE p_type = 'p' AND v0 = '' AND v1 = 'room' AND v2 = 'write' AND v3 = '' AND v4 = '' AND v5 = ''"
        ⟨"p", "alice", "room", "write", "", "", ""⟩ = some false ∧
    RemoveFilteredPolicy
        (some [⟨"p", "alice", "room", "read", "", "", ""⟩,
               ⟨"p", "alice", "room", "write", "", "", ""⟩,
               ⟨"p", "bob", "room", "read", "", "", ""⟩]) "p" "p" 1 ["room", "write"]
      = some (some [⟨"p", "alice", "room", "read", "", "", ""⟩,
                    ⟨"p", "alice", "room", "write", "", "", ""⟩,
                    ⟨"p", "bob", "room", "read", "", "", ""⟩], none) ∧
    RemoveFilteredPolicy
        (some [⟨"p", "alice", "room", "read", "", "", ""⟩,
               ⟨"p", "alice", "room", "write", "", "", ""⟩,
               ⟨"p", "bob", "room", "read", "", "", ""⟩]) "p" "p" 0 ["alice"]
      = some (some [⟨"p", "alice", "room", "read", "", "", ""⟩,
                    ⟨"p", "alice", "room", "write", "", "", ""⟩,
                    ⟨"p", "bob", "room", "read", "", "", ""⟩], none) := by
  decide

/-! ## Saving and loading a rule set -/

theorem foldl_append_singleton (f : List String → CasbinRule) (rules : List (List String)) :
    ∀ acc : List CasbinRule,
      rules.foldl (fun lines rule => lines ++ [f rule]) acc = acc ++ rules.map f := by
  induction rules with
  | nil => intro acc; simp
  | cons r rs ih => intro acc; simp [ih]

theorem collectLines_eq (assertions : AssertionMap) :
    ∀ acc : List CasbinRule,
      collectLines assertions acc
        = acc ++ assertions.flatMap (fun pa => pa.2.map (fun rule => savePolicyLine pa.1 rule)) := by
  induction assertions with
  | nil => intro acc; simp [collectLines]
  | cons pa rest ih =>
    intro acc
    have h := ih (acc ++ pa.2.map (fun rule => savePolicyLine pa.1 rule))
    simp only [collectLines, List.foldl_cons, foldl_append_singleton] at h ⊢
    rw [h]
    simp [List.flatMap_cons]

theorem SavePolicy_lines (model : Model) :
    collectLines (model.sec "g") (collectLines (model.sec "p") [])
      = model.rules.map (fun pr => savePolicyLine pr.1 pr.2) := by
  simp [collectLines_eq, Model.rules, List.flatMap_append, List.map_flatMap, Function.comp_def]

theorem writeLines_quote_free (lines : List CasbinRule)
    (h : ∀ l ∈ lines, ∀ v ∈ l.PType :: l.fields, quoteFree v) :
    ∀ t : Table,
      writeLines (some t) lines = (some (lines.foldl (fun t l => insertOrIgnore l t) t), none) := by
  induction lines with
  | nil => intro t; rfl
  | cons l ls ih =>
    intro t
    have hl := h l (by simp)
    simp only [CasbinRule.fields, List.mem_cons, forall_eq_or_imp, List.mem_singleton,
      forall_eq, List.not_mem_nil, false_imp_iff, implies_true, and_true] at hl
    obtain ⟨hp, h0, h1, h2, h3, h4, h5⟩ := hl
    simp only [writeLines, writeLine, WriteOne_writeLineStmt t l hp h0 h1 h2 h3 h4 h5,
      List.foldl_cons]
    exact ih (fun l2 hl2 => h l2 (by simp [hl2])) _

theorem foldl_insertOrIgnore_mem (lines : List CasbinRule) :
    ∀ (t : Table) (r : CasbinRule),
      r ∈ lines.foldl (fun t l => insertOrIgnore l t) t ↔ r ∈ t ∨ r ∈ lines := by
  induction lines with
  | nil => intro t r; simp
  | cons l ls ih =>
    intro t r
    simp only [List.foldl_cons, ih, insertOrIgnore_mem, List.mem_cons]
    tauto

theorem foldl_insertOrIgnore_nodup (lines : List CasbinRule) :
    ∀ t : Table, t.Nodup → (lines.foldl (fun t l => insertOrIgnore l t) t).Nodup := by
  induction lines with
  | nil => intro t h; exact h
  | cons l ls ih =>
    intro t h
    exact ih _ (insertOrIgnore_nodup l t h)

theorem dropTable_eq (db : Store) : dropTable db = none := by
  have h : parseStatement dropTableStmt = some .dropTable := by decide
  simp [dropTable, WriteOne, h]

set_option maxRecDepth 100000 in
theorem createTable_none : createTable none = some [] := by
  have h : parseStatement createTableStmt = some .createTable := by decide
  simp [createTable, WriteOne, h]

theorem QueryOne_select (rows : Table) :
    QueryOne (some rows) selectStmt = .ok (rows.map (fun _ => scanLine resultColumns)) := by
  have h : parseStatement selectStmt = some .selectAll := by decide
  simp [QueryOne, h]

theorem scanLine_line (columns : Nat) : (scanLine columns).line = {} := by
  unfold scanLine
  split <;> rfl

theorem LoadPolicy_store (rows : Table) (model : List String) :
    LoadPolicy (QueryOne (some rows)) model = (none, model ++ rows.map (fun _ => "")) := by
  have h0 : loadPolicyLineText {} = "" := by decide
  rw [LoadPolicy_of_result _ _ model (QueryOne_select rows)]
  simp [scanLine_line, h0, Function.comp_def]

theorem loadPolicyLine_savePolicyLine_filter (ptype : String) (rule : List String)
    (hlen : rule.length ≤ 6) :
    loadPolicyLineText (savePolicyLine ptype rule)
      = joinLine ptype (rule.filter (fun f => f ≠ "")) := by
  rw [loadPolicyLineText_eq_joinLine]
  rcases rule with _ | ⟨a, _ | ⟨b, _ | ⟨c, _ | ⟨d, _ | ⟨e, _ | ⟨f, _ | ⟨g, r⟩⟩⟩⟩⟩⟩⟩
  all_goals first
    | (exfalso; simp only [List.length_cons] at hlen; omega)
    | simp [savePolicyLine, CasbinRule.fields, List.filter]

/-- Claim C6, as amended: for every earlier state of the store and every rule
set whose rules have at most 6 fields and whose policy types and fields are
free of single quotes, `SavePolicy` succeeds and leaves a table without
duplicates holding exactly the rows `savePolicyLine ptype rule` of the rules of
the "p" and "g" sections, so rows present before the save are gone; and the
line texts `loadPolicyLine` builds from the stored rows are, as a set, exactly
the lines made of the policy type followed by the non-empty fields of a rule
in order (every empty field is omitted, not only trailing ones).  Which lines
`LoadPolicy` forwards from the result set is left open. -/
theorem SavePolicy_round_trip_rows (db : Store) (model : Model)
    (hq : ∀ pr ∈ model.rules, quoteFree pr.1 ∧ ∀ f ∈ pr.2, quoteFree f)
    (hlen : ∀ pr ∈ model.rules, pr.2.length ≤ 6) :
    (SavePolicy db model).2 = none ∧
    ∃ rows : Table, (SavePolicy db model).1 = some rows ∧ rows.Nodup ∧
      (∀ r, r ∈ rows ↔ ∃ pr ∈ model.rules, r = savePolicyLine pr.1 pr.2) ∧
      ∀ l, l ∈ rows.map loadPolicyLineText ↔
        ∃ pr ∈ model.rules, l = joinLine pr.1 (pr.2.filter (fun f => f ≠ "")) := by
  have hlines : ∀ l ∈ model.rules.map (fun pr => savePolicyLine pr.1 pr.2),
      ∀ v ∈ l.PType :: l.fields, quoteFree v := by
    intro l hl
    obtain ⟨pr, hpr, rfl⟩ := List.mem_map.mp hl
    obtain ⟨hp, hf⟩ := hq pr hpr
    obtain ⟨g, g0, g1, g2, g3, g4, g5⟩ := savePolicyLine_quoteFree pr.1 pr.2 hp hf
    simp [CasbinRule.fields, g, g0, g1, g2, g3, g4, g5]
  have hsave : SavePolicy db model
      = (some ((model.rules.map (fun pr => savePolicyLine pr.1 pr.2)).foldl
          (fun t l => insertOrIgnore l t) []), none) := by
    simp only [SavePolicy, dropTable_eq, createTable_none, SavePolicy_lines]
    exact writeLines_quote_free _ hlines []
  have hmem : ∀ r, r ∈ (model.rules.map (fun pr => savePolicyLine pr.1 pr.2)).foldl
      (fun t l => insertOrIgnore l t) [] ↔ ∃ pr ∈ model.rules, r = savePolicyLine pr.1 pr.2 := by
    intro r
    rw [foldl_insertOrIgnore_mem]
    simp only [List.not_mem_nil, false_or, List.mem_map]
    constructor
    · rintro ⟨pr, hpr, rfl⟩; exact ⟨pr, hpr, rfl⟩
    · rintro ⟨pr, hpr, rfl⟩; exact ⟨pr, hpr, rfl⟩
  refine ⟨by rw [hsave], _, by rw [hsave], ?_, hmem, ?_⟩
  · exact foldl_insertOrIgnore_nodup _ [] List.nodup_nil
  · intro l
    simp only [List.mem_map]
    constructor
    · rintro ⟨r, hr, rfl⟩
      obtain ⟨pr, hpr, rfl⟩ := (hmem r).mp hr
      exact ⟨pr, hpr, loadPolicyLine_savePolicyLine_filter pr.1 pr.2 (hlen pr hpr)⟩
    · rintro ⟨pr, hpr, rfl⟩
      exact ⟨savePolicyLine pr.1 pr.2, (hmem _).mpr ⟨pr, hpr, rfl⟩,
        loadPolicyLine_savePolicyLine_filter pr.1 pr.2 (hlen pr hpr)⟩

set_option maxRecDepth 100000 in
theorem SavePolicy_round_trip_rows_witness :
    ((SavePolicy (some [⟨"p", "bob", "room", "read", "", "", ""⟩])
        [("p", [("p", [["resident", "room", "read"]])])]).2 = none ∧
      ∃ rows : Table,
        (SavePolicy (some [⟨"p", "bob", "room", "read", "", "", ""⟩])
          [("p", [("p", [["resident", "room", "read"]])])]).1 = some rows ∧ rows.Nodup ∧
        (∀ r, r ∈ rows ↔ ∃ pr ∈ Model.rules [("p", [("p", [["resident", "room", "read"]])])],
          r = savePolicyLine pr.1 pr.2) ∧
        ∀ l, l ∈ rows.map loadPolicyLineText ↔
          ∃ pr ∈ Model.rules [("p", [("p", [["resident", "room", "read"]])])],
            l = joinLine pr.1 (pr.2.filter (fun f => f ≠ ""))) ∧
    (SavePolicy (some [⟨"p", "bob", "room", "read", "", "", ""⟩])
        [("p", [("p", [["resident", "room", "read"]])])]).1
      = some [⟨"p", "resident", "room", "read", "", "", ""⟩] ∧
    loadPolicyLineText ⟨"p", "resident", "room", "read", "", "", ""⟩
      = "p, resident, room, read" :=
  ⟨SavePolicy_round_trip_rows (some [⟨"p", "bob", "room", "read", "", "", ""⟩])
      [("p", [("p", [["resident", "room", "read"]])])] (by decide) (by decide),
    by decide, by decide⟩

set_option maxRecDepth 100000 in
/-- Claim C6 as stated fails three times.  On the claim's own example,
`LoadPolicy` scans every row with the single destination `&line`, the scan
fails, and the line forwarded for the stored row (p, resident, room, read) is
the empty line of the zero row, not "p, resident, room, read".  A rule with an
empty field before a non-empty one, `[a, "", c]`, is stored as the row
(p, a, "", c), whose line text is "p, a, c" and not "p, a, , c" with the fields
in their original positions.  A rule whose field holds a single quote makes
the INSERT fail, so `SavePolicy` returns an error and stores nothing. -/
theorem SavePolicy_LoadPolicy_counterexample :
    (SavePolicy none [("p", [("p", [["resident", "room", "read"]])])])
      = (some [⟨"p", "resident", "room", "read", "", "", ""⟩], none) ∧
    LoadPolicy (QueryOne (SavePolicy none [("p", [("p", [["resident", "room", "read"]])])]).1) []
      = (none, [""]) ∧
    positionalLine "p" ["resident", "room", "read"] = "p, resident, room, read" ∧
    positionalLine "p" ["resident", "room", "read"]
      ∉ (LoadPolicy
          (QueryOne (SavePolicy none [("p", [("p", [["resident", "room", "read"]])])]).1) []).2 ∧
    (SavePolicy none [("p", [("p", [["a", "", "c"]])])])
      = (some [⟨"p", "a", "", "c", "", "", ""⟩], none) ∧
    loadPolicyLineText ⟨"p", "a", "", "c", "", "", ""⟩ = "p, a, c" ∧
    positionalLine "p" ["a", "", "c"] = "p, a, , c" ∧
    (SavePolicy none [("p", [("p", [["O'Brien"]])])]) = (some [], some "syntax error") := by
  decide

end RqliteAdapter
